import Mathlib

/-!
Verification of the tideland/go-audit assertion library (package `asserts`).

The development shallowly embeds the comparison kernel of
`src/asserts/tester.go`, the reporting backends of the failer file
(`panicFailer`, `validationFailer`, `testingFailer`) and the printers
(`bufferedPrinter`), and proves or refutes the frozen claims about them.

Modelling conventions:
* Go dynamic values (`any`) are modelled by the inductive `GoValue`, which
  covers the dynamic types the kernel's type switches distinguish.  Map and
  channel contents are abstracted to their element counts (no modelled claim
  inspects them); custom types with a `Len()` method are `vLenable`.
* Go strings are byte sequences (`List Nat`), as in Go, so that rune counting
  versus byte length is faithfully representable.
* `float64` is modelled by exact rationals `Rat`; the kernel only uses
  subtraction, addition, negation and order on them.
* Fallible kernel functions returning `(T, error)` become `Except GoError T`;
  a Go panic escaping a function is `Except GoError` at the call boundary
  (`Panic` alias) since a panic aborts the normal return path.
-/

namespace GoAudit

/-- Test represents the test inside an assert (the `Test` enumeration of the
source, current constant set including Zero, AnyError, Contains, NotContains). -/
inductive Test where
  | Invalid
  | True
  | False
  | Nil
  | NotNil
  | Zero
  | NoError
  | AnyError
  | Equal
  | Different
  | Contains
  | NotContains
  | About
  | Range
  | Substring
  | Case
  | Match
  | ErrorMatch
  | ErrorContains
  | Implementor
  | Assignable
  | Unassignable
  | Empty
  | NotEmpty
  | Length
  | Panics
  | NotPanics
  | PanicsWith
  | PathExists
  | Wait
  | WaitClosed
  | WaitGroup
  | WaitTested
  | Retry
  | Fail
  | OK
  | NotOK
deriving DecidableEq, Repr

/-- A Go error value's message, as produced by `errors.New` / `fmt.Errorf`
(Go strings are byte sequences). -/
abbrev GoError := List Nat

/-- GoValue models a Go `any` (interface) value at the granularity used by the
kernel's type switches: the scalar domains of `isInRange`, strings and byte
slices, the reference kinds inspected by `isNil`, slices/arrays with their
elements, maps/channels abstracted to their sizes, values implementing the
`lenable` and `errable` helper interfaces, and plain error values. -/
inductive GoValue where
  /-- the nil interface: `obtained == nil` -/
  | vNilIface
  | vBool (b : Bool)
  /-- Go `byte` (uint8) -/
  | vByte (n : Nat)
  | vInt (n : Int)
  /-- Go `float64`, modelled exactly -/
  | vFloat (x : Rat)
  /-- Go `rune` (int32) -/
  | vRune (n : Int)
  /-- Go `string` as its byte sequence -/
  | vString (bs : List Nat)
  /-- Go `[]byte` with slice nil-ness -/
  | vBytes (bs : List Nat) (nilSlice : Bool)
  /-- `time.Time`, abstracted to a point on an integer timeline -/
  | vTime (t : Int)
  /-- `time.Duration` (an int64) -/
  | vDuration (d : Int)
  | vSlice (es : List GoValue) (nilSlice : Bool)
  | vArray (es : List GoValue)
  /-- a Go map, abstracted to its size and nil-ness -/
  | vMap (size : Nat) (nilMap : Bool)
  /-- a Go channel, abstracted to its queued length, capacity and nil-ness -/
  | vChan (len : Nat) (cap : Nat) (nilChan : Bool)
  | vFunc (nilFunc : Bool)
  /-- a typed pointer (element value abstracted away) -/
  | vPtr (nilPtr : Bool)
  /-- a non-nil value of a type implementing `error` -/
  | vError (msg : GoError)
  /-- a value implementing the `errable` helper interface: `Err()` yields
  `none` (nil) or an error -/
  | vErrable (e : Option GoError)
  /-- a value of a custom type implementing the `lenable` helper interface -/
  | vLenable (len : Nat)
deriving Repr

mutual

/-- Embedding of `reflect.DeepEqual` on the modelled universe: structural,
element-by-element equality (types must agree, so distinct constructors are
unequal). -/
def deepEqual : GoValue → GoValue → Bool
  | .vNilIface, .vNilIface => true
  | .vBool a, .vBool b => a == b
  | .vByte a, .vByte b => a == b
  | .vInt a, .vInt b => a == b
  | .vFloat a, .vFloat b => a == b
  | .vRune a, .vRune b => a == b
  | .vString a, .vString b => a == b
  | .vBytes a an, .vBytes b bn => a == b && an == bn
  | .vTime a, .vTime b => a == b
  | .vDuration a, .vDuration b => a == b
  | .vSlice as an, .vSlice bs bn => an == bn && deepEqualList as bs
  | .vArray as, .vArray bs => deepEqualList as bs
  | .vMap a an, .vMap b bn => a == b && an == bn
  | .vChan al ac an, .vChan bl bc bn => al == bl && ac == bc && an == bn
  | .vFunc a, .vFunc b => a == b
  | .vPtr a, .vPtr b => a == b
  | .vError a, .vError b => a == b
  | .vErrable a, .vErrable b => a == b
  | .vLenable a, .vLenable b => a == b
  | _, _ => false

/-- Element-wise deep equality of value lists. -/
def deepEqualList : List GoValue → List GoValue → Bool
  | [], [] => true
  | a :: as, b :: bs => deepEqual a b && deepEqualList as bs
  | _, _ => false

end

/-- Encode a Lean string literal as a Go byte sequence.  All literals used in
this development are ASCII, where the code-point sequence and the UTF-8 byte
sequence coincide. -/
def str (s : String) : List Nat :=
  s.data.map Char.toNat

/-- Embedding of `isTrue`: checks if obtained is true. -/
def isTrue (obtained : Bool) : Bool :=
  obtained

/-- Raw `reflect.Value.IsNil`: defined for the chan, func, map, pointer and
slice kinds of the universe; on every other kind it panics (`.error`). -/
def reflectIsNil : GoValue → Except GoError Bool
  | .vChan _ _ n => .ok n
  | .vFunc n => .ok n
  | .vMap _ n => .ok n
  | .vPtr n => .ok n
  | .vSlice _ n => .ok n
  | .vBytes _ n => .ok n
  | _ => .error (str ("reflect: call of reflect.Value.IsNil on invalid kind"))

/-- Embedding of `isNil`: nil interface first, then `value.IsNil()` but only
behind the kind switch (Chan, Func, Interface, Map, Ptr, Slice), else false.
The `Except` result records whether a reflection panic escapes. -/
def isNil (obtained : GoValue) : Except GoError Bool :=
  match obtained with
  | .vNilIface => .ok true
  | .vChan _ _ _ => reflectIsNil obtained
  | .vFunc _ => reflectIsNil obtained
  | .vMap _ _ => reflectIsNil obtained
  | .vPtr _ => reflectIsNil obtained
  | .vSlice _ _ => reflectIsNil obtained
  | .vBytes _ _ => reflectIsNil obtained
  | _ => .ok false

/-- Embedding of `isEqual`: `reflect.DeepEqual(obtained, expected)`. -/
def isEqual (obtained expected : GoValue) : Bool :=
  deepEqual obtained expected

/-- Embedding of `isAbout`: negative extents are flipped by multiplying with
-1, then `expected - extent <= obtained && obtained <= expected + extent`. -/
def isAbout (obtained expected extent : Rat) : Bool :=
  let ext := if extent < 0 then extent * (-1) else extent
  decide (expected - ext ≤ obtained) && decide (obtained ≤ expected + ext)

/-- Byte length of one UTF-8 encoded rune, from its leading byte (exact on
valid UTF-8, which is the domain of the length claims; Go's decoder treats an
invalid byte as a one-byte RuneError just like the first arm here). -/
def runeLen (b : Nat) : Nat :=
  if b < 0xC0 then 1
  else if b < 0xE0 then 2
  else if b < 0xF0 then 3
  else 4

/-- Helper for `utf8RuneCount`: `skip` continuation bytes still belonging to
the current rune remain to be consumed. -/
def runeCountAux : List Nat → Nat → Nat
  | [], _ => 0
  | _ :: rest, skip + 1 => runeCountAux rest skip
  | b :: rest, 0 => 1 + runeCountAux rest (runeLen b - 1)

/-- Embedding of `utf8.RuneCountInString` over the byte sequence of a Go
string: counts encoded code points, not bytes. -/
def utf8RuneCount (bs : List Nat) : Nat :=
  runeCountAux bs 0

/-- Kind description used in the `hasLength` error message (the source's
`ValueDescription`, abstracted to the reflection kind name). -/
def valueDescription : GoValue → List Nat
  | .vNilIface => str ("invalid")
  | .vBool _ => str ("bool")
  | .vByte _ => str ("uint8")
  | .vInt _ => str ("int")
  | .vFloat _ => str ("float64")
  | .vRune _ => str ("int32")
  | .vString _ => str ("string")
  | .vBytes _ _ => str ("slice of uint8")
  | .vTime _ => str ("struct Time")
  | .vDuration _ => str ("int64")
  | .vSlice _ _ => str ("slice")
  | .vArray _ => str ("array")
  | .vMap _ _ => str ("map")
  | .vChan _ _ _ => str ("chan")
  | .vFunc _ => str ("func")
  | .vPtr _ => str ("ptr")
  | .vError _ => str ("ptr to errors.errorString")
  | .vErrable _ => str ("struct")
  | .vLenable _ => str ("struct")

/-- Embedding of `hasLength`: first the `lenable` interface, then strings by
rune count, then the reflection kinds array, chan, map, slice; anything else
is an error.  Returns (length equals expected, length). -/
def hasLength (obtained : GoValue) (expected : Int) : Except GoError (Bool × Int) :=
  match obtained with
  | .vLenable l => .ok (decide ((l : Int) = expected), (l : Int))
  | .vString bs =>
    let l := utf8RuneCount bs
    .ok (decide ((l : Int) = expected), (l : Int))
  | .vArray es => .ok (decide ((es.length : Int) = expected), (es.length : Int))
  | .vChan l _ _ => .ok (decide ((l : Int) = expected), (l : Int))
  | .vMap s _ => .ok (decide ((s : Int) = expected), (s : Int))
  | .vSlice es _ => .ok (decide ((es.length : Int) = expected), (es.length : Int))
  | .vBytes bs _ => .ok (decide ((bs.length : Int) = expected), (bs.length : Int))
  | _ =>
    .error (str ("obtained ") ++ valueDescription obtained ++
      str (" is no array, chan, map, slice, string and does not understand Len()"))

/-- Type assertion `low.(byte)`. -/
def asByte : GoValue → Option Nat
  | .vByte n => some n
  | _ => none

/-- Type assertion `low.(int)`. -/
def asInt : GoValue → Option Int
  | .vInt n => some n
  | _ => none

/-- Type assertion `low.(float64)`. -/
def asFloat : GoValue → Option Rat
  | .vFloat x => some x
  | _ => none

/-- Type assertion `low.(rune)`. -/
def asRune : GoValue → Option Int
  | .vRune n => some n
  | _ => none

/-- Type assertion `low.(string)`. -/
def asString : GoValue → Option (List Nat)
  | .vString bs => some bs
  | _ => none

/-- Type assertion `low.(time.Time)`. -/
def asTime : GoValue → Option Int
  | .vTime t => some t
  | _ => none

/-- Type assertion `low.(time.Duration)`. -/
def asDuration : GoValue → Option Int
  | .vDuration d => some d
  | _ => none

/-- Lexicographic byte-wise order on Go strings (`l <= o` on strings). -/
def bytesLE : List Nat → List Nat → Bool
  | [], _ => true
  | _ :: _, [] => false
  | a :: as, b :: bs =>
    if a < b then true
    else if b < a then false
    else bytesLE as bs

/-- Embedding of `isInRange`.  Each scalar arm mirrors the source exactly: a
failed type assertion leaves the Go zero value in the bound, and the error is
raised only when BOTH assertions failed (`!lok && !hok`); otherwise the
comparison proceeds with the zero-valued bound.  Unmatched observed types fall
back to comparing the value's length against int bounds. -/
def isInRange (obtained low high : GoValue) : Except GoError Bool :=
  match obtained with
  | .vByte o =>
    let l := asByte low
    let h := asByte high
    if l.isNone && h.isNone then .error (str ("low and/or high are no byte"))
    else .ok (decide (l.getD 0 ≤ o) && decide (o ≤ h.getD 0))
  | .vInt o =>
    let l := asInt low
    let h := asInt high
    if l.isNone && h.isNone then .error (str ("low and/or high are no int"))
    else .ok (decide (l.getD 0 ≤ o) && decide (o ≤ h.getD 0))
  | .vFloat o =>
    let l := asFloat low
    let h := asFloat high
    if l.isNone && h.isNone then .error (str ("low and/or high are no float64"))
    else .ok (decide (l.getD 0 ≤ o) && decide (o ≤ h.getD 0))
  | .vRune o =>
    let l := asRune low
    let h := asRune high
    if l.isNone && h.isNone then .error (str ("low and/or high are no rune"))
    else .ok (decide (l.getD 0 ≤ o) && decide (o ≤ h.getD 0))
  | .vString o =>
    let l := asString low
    let h := asString high
    if l.isNone && h.isNone then .error (str ("low and/or high are no string"))
    else .ok (bytesLE (l.getD []) o && bytesLE o (h.getD []))
  | .vTime o =>
    let l := asTime low
    let h := asTime high
    if l.isNone && h.isNone then .error (str ("low and/or high are no time"))
    else .ok (decide (l.getD 0 ≤ o) && decide (o ≤ h.getD 0))
  | .vDuration o =>
    let l := asDuration low
    let h := asDuration high
    if l.isNone && h.isNone then .error (str ("low and/or high are no duration"))
    else .ok (decide (l.getD 0 ≤ o) && decide (o ≤ h.getD 0))
  | _ =>
    match hasLength obtained 0 with
    | .error _ => .error (str ("no valid type with a length"))
    | .ok (_, ol) =>
      let l := asInt low
      let h := asInt high
      if l.isNone && h.isNone then .error (str ("low and/or high are no int"))
      else .ok (decide (l.getD 0 ≤ ol) && decide (ol ≤ h.getD 0))

/-- Decimal rendering of a natural number (for `fmt.Sprintf("%v", ...)`). -/
def natToBytes (n : Nat) : List Nat :=
  (Nat.toDigits 10 n).map Char.toNat

/-- Decimal rendering of an integer. -/
def intToBytes (i : Int) : List Nat :=
  if i < 0 then 45 :: natToBytes i.natAbs else natToBytes i.natAbs

/-- Model of `fmt.Sprintf("%v", value)` for the part coercion in `contains`.
Faithful for booleans, bytes, ints, runes and strings (decimal rendering for
the numeric kinds); composite and float renderings are abstract placeholders
on which no theorem depends. -/
def sprintfV : GoValue → List Nat
  | .vNilIface => str ("<nil>")
  | .vBool b => if b then str ("true") else str ("false")
  | .vByte n => natToBytes n
  | .vInt i => intToBytes i
  | .vRune i => intToBytes i
  | .vString bs => bs
  | .vBytes bs _ => bs
  | .vFloat x => intToBytes x.num ++ str ("/") ++ natToBytes x.den
  | .vTime t => intToBytes t
  | .vDuration d => intToBytes d
  | .vError m => m
  | _ => str ("value")

/-- Does the byte sequence (first argument) start with the prefix given as
second argument? -/
def bytesHasPrefix : List Nat → List Nat → Bool
  | _, [] => true
  | [], _ :: _ => false
  | a :: as, b :: bs => a == b && bytesHasPrefix as bs

/-- Embedding of `strings.Contains(full, part)` on byte sequences: the part
occurs as a contiguous run (the empty part is always contained). -/
def bytesContains : List Nat → List Nat → Bool
  | [], part => part.isEmpty
  | a :: rest, part => bytesHasPrefix (a :: rest) part || bytesContains rest part

/-- Embedding of `contains`: textual full values check substring containment
(coercing a non-string, non-bytes part through `%v`); array and slice full
values check deep-equality membership of the part; any other full value is a
type error. -/
def contains (part full : GoValue) : Except GoError Bool :=
  match full with
  | .vString fullBs =>
    match part with
    | .vString p => .ok (bytesContains fullBs p)
    | .vBytes p _ => .ok (bytesContains fullBs p)
    | _ => .ok (bytesContains fullBs (sprintfV part))
  | .vBytes fullBs _ =>
    match part with
    | .vString p => .ok (bytesContains fullBs p)
    | .vBytes p _ => .ok (bytesContains fullBs p)
    | _ => .ok (bytesContains fullBs (sprintfV part))
  | .vSlice es _ => .ok (es.any (fun e => deepEqual part e))
  | .vArray es => .ok (es.any (fun e => deepEqual part e))
  | _ => .error (str ("full value is no string, array, or slice"))

/-- Embedding of `isSubstring`: `strings.Contains(full, obtained)`. -/
def isSubstring (obtained full : List Nat) : Bool :=
  bytesContains full obtained

/-- Embedding of `isCase`: the obtained string equals its upper-cased (or
lower-cased) image.  ASCII case mapping suffices for the modelled byte
domain. -/
def asciiToUpper (b : Nat) : Nat :=
  if 97 ≤ b && b ≤ 122 then b - 32 else b

/-- ASCII lower-casing of one byte. -/
def asciiToLower (b : Nat) : Nat :=
  if 65 ≤ b && b ≤ 90 then b + 32 else b

/-- Embedding of `isCase`. -/
def isCase (obtained : List Nat) (upperCase : Bool) : Bool :=
  if upperCase then obtained == obtained.map asciiToUpper
  else obtained == obtained.map asciiToLower

/-! Regular-expression model for `isMatching`.

The source delegates to Go's `regexp.MatchString("^"+regex+"$", obtained)`.
`MatchString(p, s)` reports whether `s` CONTAINS a match of `p`, and
alternation `|` has the lowest precedence in the pattern grammar, so the
textual wrapping `"^"+regex+"$"` attaches the anchors to the first and last
alternation branch only.  The model covers the pattern fragment built from
literal characters, top-level alternation `|` and the positional anchors
`^`/`$`; every pattern of the fragment compiles, so the `error` result of
`regexp.MatchString` is always nil and is omitted. -/

/-- One atom of the modelled pattern fragment. -/
inductive RAtom where
  /-- a literal byte -/
  | lit (c : Nat)
  /-- the start-of-text anchor `^` -/
  | caret
  /-- the end-of-text anchor `$` -/
  | dollar
deriving DecidableEq, Repr

/-- Classify one pattern byte (94 is `^`, 36 is `$`). -/
def atomOfByte (b : Nat) : RAtom :=
  if b = 94 then .caret else if b = 36 then .dollar else .lit b

/-- Split a pattern at every `|` (byte 124): alternation has the lowest
precedence, exactly as in Go's pattern grammar. -/
def splitAlt : List Nat → List (List Nat)
  | [] => [[]]
  | c :: rest =>
    if c = 124 then [] :: splitAlt rest
    else
      match splitAlt rest with
      | [] => [[c]]
      | g :: gs => (c :: g) :: gs

/-- The alternation branches of a pattern, as atom sequences. -/
def branchesOf (pat : List Nat) : List (List RAtom) :=
  (splitAlt pat).map (fun g => g.map atomOfByte)

/-- Match an atom sequence against `s` starting at position `i`; returns the
end position on success.  Literals consume one byte, anchors consume nothing
and constrain the position. -/
def matchAtoms (s : List Nat) : List RAtom → Nat → Option Nat
  | [], i => some i
  | .lit c :: rest, i =>
    match s[i]? with
    | some c2 => if c2 = c then matchAtoms s rest (i + 1) else none
    | none => none
  | .caret :: rest, i => if i = 0 then matchAtoms s rest i else none
  | .dollar :: rest, i => if i = s.length then matchAtoms s rest i else none

/-- Does some branch of the pattern match starting at position `i`? -/
def matchSomeBranchAt (pat s : List Nat) (i : Nat) : Bool :=
  (branchesOf pat).any (fun b => (matchAtoms s b i).isSome)

/-- Model of `regexp.MatchString(pat, s)`: the string contains a match of the
pattern beginning at some position. -/
def goMatchString (pat s : List Nat) : Bool :=
  (List.range (s.length + 1)).any (fun i => matchSomeBranchAt pat s i)

/-- Embedding of `isMatching`: `regexp.MatchString("^"+regex+"$", obtained)`
(94 and 36 are the `^` and `$` bytes). -/
def isMatching (obtained regex : List Nat) : Bool :=
  goMatchString (94 :: regex ++ [36]) obtained

/-- Modelled from the spec's words, for comparison with `isMatching`: the
whole of `s` matches the pattern, anchored at both start and end — some
alternation branch consumes `s` from position 0 to its end. -/
def wholeAnchoredMatch (regex s : List Nat) : Bool :=
  (branchesOf regex).any (fun b => matchAtoms s b 0 == some s.length)

/-! UTF-8 encoding, for the rune-count length claims. -/

/-- A Unicode scalar value (what a well-formed Go string encodes). -/
def validScalar (c : Nat) : Prop :=
  c < 0xD800 ∨ (0xE000 ≤ c ∧ c < 0x110000)

instance (c : Nat) : Decidable (validScalar c) := by
  unfold validScalar
  infer_instance

/-- UTF-8 encoding of one scalar value. -/
def encodeRune (c : Nat) : List Nat :=
  if c < 0x80 then [c]
  else if c < 0x800 then [0xC0 + c / 0x40, 0x80 + c % 0x40]
  else if c < 0x10000 then
    [0xE0 + c / 0x1000, 0x80 + c / 0x40 % 0x40, 0x80 + c % 0x40]
  else
    [0xF0 + c / 0x40000, 0x80 + c / 0x1000 % 0x40, 0x80 + c / 0x40 % 0x40,
      0x80 + c % 0x40]

/-- UTF-8 encoding of a scalar sequence as a Go string's bytes. -/
def utf8Encode (cs : List Nat) : List Nat :=
  (cs.map encodeRune).flatten

/-! Failure records, printers and the three reporting backends. -/

/-- Printable name of a test (the `testNames` table; `OK` and `NotOK` have no
entry and fall back to "invalid" via the bounds check in `Test.String`). -/
def testName : Test → List Nat
  | .Invalid => str ("invalid")
  | .True => str ("true")
  | .False => str ("false")
  | .Nil => str ("nil")
  | .NotNil => str ("not nil")
  | .Zero => str ("zero")
  | .NoError => str ("no error")
  | .AnyError => str ("any error")
  | .Equal => str ("equal")
  | .Different => str ("different")
  | .Contains => str ("contains")
  | .NotContains => str ("not contains")
  | .About => str ("about")
  | .Range => str ("range")
  | .Substring => str ("substring")
  | .Case => str ("case")
  | .Match => str ("match")
  | .ErrorMatch => str ("error match")
  | .ErrorContains => str ("error contains")
  | .Implementor => str ("implementor")
  | .Assignable => str ("assignable")
  | .Unassignable => str ("unassignable")
  | .Empty => str ("empty")
  | .NotEmpty => str ("not empty")
  | .Length => str ("length")
  | .Panics => str ("panics")
  | .NotPanics => str ("not panics")
  | .PanicsWith => str ("panics with")
  | .PathExists => str ("path exists")
  | .Wait => str ("wait")
  | .WaitClosed => str ("wait closed")
  | .WaitGroup => str ("wait group")
  | .WaitTested => str ("wait tested")
  | .Retry => str ("retry")
  | .Fail => str ("fail")
  | .OK => str ("invalid")
  | .NotOK => str ("invalid")

/-- The `*lowHigh` wrapper handed to `Fail` by the Range assertion. -/
structure LowHigh where
  low : GoValue
  high : GoValue

/-- The dynamic `expected` argument of `Failer.Fail`: an ordinary value, or
the `*lowHigh` bounds wrapper passed by `Range`. -/
inductive FailValue where
  | val (v : GoValue)
  | bounds (lh : LowHigh)

/-- Join Go strings with a single blank (`strings.Join(msgs, " ")`). -/
def joinSpace (msgs : List (List Nat)) : List Nat :=
  (List.intersperse (str (" ")) msgs).flatten

/-- Embedding of `obexString`; value renderings go through the `%v` model.
The Range arm reads the bounds wrapper (the source type-asserts `*lowHigh`
there; the facade is its only caller and always passes the wrapper, so the
`val` fallback arm is unreachable from the embedded assertion methods). -/
def obexString (test : Test) (obtained : GoValue) (expected : FailValue) : List Nat :=
  match test with
  | .True | .False | .Nil | .NotNil | .Empty | .NotEmpty =>
    str ("'") ++ sprintfV obtained ++ str ("'")
  | .Implementor | .Assignable | .Unassignable =>
    str ("'") ++ valueDescription obtained ++ str ("' <> '") ++
      (match expected with
       | .val v => valueDescription v
       | .bounds _ => str ("ptr")) ++ str ("'")
  | .Range =>
    match expected with
    | .bounds lh =>
      str ("not '") ++ sprintfV lh.low ++ str ("' <= '") ++ sprintfV obtained ++
        str ("' <= '") ++ sprintfV lh.high ++ str ("'")
    | .val _ => str ("not '' <= '") ++ sprintfV obtained ++ str ("' <= ''")
  | .Fail => str ("fail intended")
  | _ =>
    str ("'") ++ sprintfV obtained ++ str ("' <> '") ++
      (match expected with
       | .val v => sprintfV v
       | .bounds _ => str ("ptr")) ++ str ("'")

/-- Embedding of `failString`: the text of the error built for a failed
assertion, with the joined context messages appended in parentheses. -/
def failString (test : Test) (obex : List Nat) (msgs : List (List Nat)) : List Nat :=
  let out :=
    if test = .Fail then str ("assert failed: ") ++ obex
    else str ("assert '") ++ testName test ++ str ("' failed: ") ++ obex
  let jmsgs := joinSpace msgs
  if 0 < jmsgs.length then out ++ str (" (") ++ jmsgs ++ str (")") else out

/-- Embedding of the buffered printer's state: its `buffer` field. -/
abbrev BufferState := List (List Nat)

/-- One printer interaction: a log line or an error line, already formatted
(the model treats the `fmt.Sprintf` rendering of format and arguments as the
input line). -/
inductive PrintAction where
  | log (line : List Nat)
  | err (line : List Nat)

/-- Embedding of `bufferedPrinter.Logf`: appends the prefixed line. -/
def bufferedLogf (buffer : BufferState) (line : List Nat) : BufferState :=
  buffer ++ [str ("[LOG] ") ++ line]

/-- Embedding of `bufferedPrinter.Errorf`: appends the prefixed line. -/
def bufferedErrorf (buffer : BufferState) (line : List Nat) : BufferState :=
  buffer ++ [str ("[ERR] ") ++ line]

/-- Apply one printer interaction to the buffer. -/
def applyPrint (buffer : BufferState) : PrintAction → BufferState
  | .log line => bufferedLogf buffer line
  | .err line => bufferedErrorf buffer line

/-- The line a printer interaction leaves in the buffer. -/
def renderPrint : PrintAction → List Nat
  | .log line => str ("[LOG] ") ++ line
  | .err line => str ("[ERR] ") ++ line

/-- Embedding of `bufferedPrinter.Flush`: returns the buffered lines and
resets the buffer to nil. -/
def bufferedFlush (buffer : BufferState) : List (List Nat) × BufferState :=
  (buffer, [])

/-- Embedding of `FailureDetail` (`failureDetail` struct). -/
structure FailureDetail where
  timestamp : Int
  location : List Nat
  fn : List Nat
  test : Test
  err : List Nat
  message : List Nat

/-- Mutable state of `validationFailer` (printer output is not observed by
any claim and is omitted; the mutex serializes access and has no sequential
content). -/
structure ValidationFailer where
  offset : Int
  details : List FailureDetail
  errs : List (List Nat)

/-- The call environment an assertion failure is reported in: the caller
location and function resolved by `here(offset)` and the `time.Now()`
timestamp.  Both come from the runtime, so they are inputs of the model. -/
structure CallEnv where
  location : List Nat
  fn : List Nat
  ts : Int

/-- Embedding of `validationFailer.Fail`: builds the failure detail and the
error, appends both, and reports `false`. -/
def validationFail (f : ValidationFailer) (env : CallEnv) (test : Test)
    (obtained : GoValue) (expected : FailValue) (msgs : List (List Nat)) :
    Bool × ValidationFailer :=
  let obex := obexString test obtained expected
  let err := failString test obex msgs
  let detail : FailureDetail :=
    { timestamp := env.ts, location := env.location, fn := env.fn,
      test := test, err := err, message := joinSpace msgs }
  (false, { f with details := f.details ++ [detail], errs := f.errs ++ [err] })

/-- Embedding of `validationFailer.HasErrors`: some error was collected. -/
def hasErrors (f : ValidationFailer) : Bool :=
  decide (0 < f.errs.length)

/-- The `validationFailer` built by `NewValidation`. -/
def newValidation : ValidationFailer :=
  { offset := 4, details := [], errs := [] }

/-- Fail modes of the testing failer. -/
inductive FailMode where
  | noFailing
  | failContinue
  | failStop
deriving DecidableEq, Repr

/-- Mutable state of `testingFailer`: printed log and error lines, and the
signals sent to the harness `Failable` (`Fail()` / `FailNow()`; `FailNow`
stops the test goroutine via the harness, which is not a Go panic). -/
structure TestingFailer where
  offset : Int
  logged : List (List Nat)
  errored : List (List Nat)
  failedFlag : Bool
  failNowFlag : Bool

/-- The test-kind dependent got/want fragment of `testingFailer.Fail`'s
message (value renderings through the `%v` model). -/
def testingObex (test : Test) (obtained : GoValue) (expected : FailValue) : List Nat :=
  match test with
  | .True | .False | .Nil | .NotNil | .NoError | .Empty | .NotEmpty | .Panics =>
    str ("got: ") ++ sprintfV obtained
  | .Implementor | .Assignable | .Unassignable =>
    str ("got: ") ++ valueDescription obtained ++ str (", want: ") ++
      (match expected with
       | .val v => valueDescription v
       | .bounds _ => str ("ptr"))
  | .Contains | .NotContains =>
    str ("part: ") ++ sprintfV obtained ++ str (", full: ") ++
      (match expected with
       | .val v => sprintfV v
       | .bounds _ => str ("ptr"))
  | .Fail => []
  | _ =>
    str ("got: ") ++ sprintfV obtained ++ str (", want: ") ++
      (match expected with
       | .val v => sprintfV v
       | .bounds _ => str ("ptr"))

/-- The full line `testingFailer.Fail` prints (braces written as the escaped
bytes \x7b and \x7d). -/
def testingFailLine (env : CallEnv) (test : Test) (obtained : GoValue)
    (expected : FailValue) (msgs : List (List Nat)) : List Nat :=
  let head :=
    if test = .Fail then
      env.location ++ str (" assert in ") ++ env.fn ++ str ("() failed \x7b")
    else
      env.location ++ str (" assert '") ++ testName test ++ str ("' in ") ++
        env.fn ++ str ("() failed \x7b")
  let body := testingObex test obtained expected
  let info :=
    if msgs.length > 0 then
      (if body.length > 0 then str (", ") else []) ++ str ("info: ") ++ joinSpace msgs
    else []
  head ++ body ++ info ++ str ("\x7d")

/-- Embedding of `testingFailer.Fail`: format the line, then log it (silent
mode) or print it as an error and signal the harness (continue/stop modes);
always reports `false` to its caller. -/
def testingFail (st : TestingFailer) (mode : FailMode) (env : CallEnv)
    (test : Test) (obtained : GoValue) (expected : FailValue)
    (msgs : List (List Nat)) : Bool × TestingFailer :=
  let line := testingFailLine env test obtained expected msgs
  match mode with
  | .noFailing => (false, { st with logged := st.logged ++ [line] })
  | .failContinue =>
    (false, { st with errored := st.errored ++ [line], failedFlag := true })
  | .failStop =>
    (false, { st with errored := st.errored ++ [line], failNowFlag := true })

/-- The three interchangeable reporting backends bound to the facade. -/
inductive Backend where
  /-- `panicFailer` (its standard printer writes to stderr, outside the
  modelled state) -/
  | panicking
  /-- `validationFailer` with its collected records -/
  | validation (f : ValidationFailer)
  /-- `testingFailer` with its construction-time mode -/
  | testing (mode : FailMode) (st : TestingFailer)

/-- Is the backend one of the non-panicking ones? -/
def nonPanicking : Backend → Bool
  | .panicking => false
  | .validation _ => true
  | .testing _ _ => true

/-- Embedding of `Failer.Fail` across the backends.  The panicking backend
formats and raises (`panic(failStr)` — the `.error` case); the other two
append records or print and signal, and return `false` without disrupting
control flow. -/
def backendFail (b : Backend) (env : CallEnv) (test : Test) (obtained : GoValue)
    (expected : FailValue) (msgs : List (List Nat)) :
    Except GoError (Bool × Backend) :=
  match b with
  | .panicking =>
    .error (failString test (obexString test obtained expected) msgs)
  | .validation f =>
    let r := validationFail f env test obtained expected msgs
    .ok (r.1, .validation r.2)
  | .testing mode st =>
    let r := testingFail st mode env test obtained expected msgs
    .ok (r.1, .testing mode r.2)

/-- Embedding of `anyToError`: nil stays nil, an error is returned as is, an
`errable` is unwrapped through `Err()`; any other value panics with "invalid
type for error assertion". -/
def anyToError : GoValue → Except GoError GoValue
  | .vNilIface => .ok .vNilIface
  | .vError m => .ok (.vError m)
  | .vErrable e =>
    .ok (match e with
         | none => .vNilIface
         | some m => .vError m)
  | _ => .error (str ("invalid type for error assertion"))

/-- Can `anyToError` convert this value (nil, an error, or an errable)? -/
def errorish : GoValue → Bool
  | .vNilIface => true
  | .vError _ => true
  | .vErrable _ => true
  | _ => false

/-- Embedding of `Asserts.True`: kernel check, then `Fail(True, obtained,
true, msgs...)` on the bound backend. -/
def aTrue (b : Backend) (env : CallEnv) (obtained : Bool)
    (msgs : List (List Nat)) : Except GoError (Bool × Backend) :=
  if !isTrue obtained then
    backendFail b env .True (.vBool obtained) (.val (.vBool true)) msgs
  else .ok (true, b)

/-- Embedding of `Asserts.Equal`: deep equality, then `Fail(Equal, obtained,
expected, msgs...)`. -/
def aEqual (b : Backend) (env : CallEnv) (obtained expected : GoValue)
    (msgs : List (List Nat)) : Except GoError (Bool × Backend) :=
  if !isEqual obtained expected then
    backendFail b env .Equal obtained (.val expected) msgs
  else .ok (true, b)

/-- Embedding of `Asserts.NoError`: converts the argument through
`anyToError` (whose panic escapes the assertion call), then fails via the
backend when the error is not nil. -/
def aNoError (b : Backend) (env : CallEnv) (obtained : GoValue)
    (msgs : List (List Nat)) : Except GoError (Bool × Backend) :=
  match anyToError obtained with
  | .error p => .error p
  | .ok err =>
    match isNil err with
    | .error p => .error p
    | .ok nilErr =>
      if !nilErr then backendFail b env .NoError err (.val .vNilIface) msgs
      else .ok (true, b)

/-- Embedding of `Asserts.Range`: wraps the bounds, runs `isInRange`, and
turns a kernel type error into a failure report prefixed "type missmatch: "
(spelling as in the source). -/
def aRange (b : Backend) (env : CallEnv) (obtained low high : GoValue)
    (msgs : List (List Nat)) : Except GoError (Bool × Backend) :=
  let expected := FailValue.bounds { low := low, high := high }
  match isInRange obtained low high with
  | .error e =>
    backendFail b env .Range obtained expected [str ("type missmatch: ") ++ e]
  | .ok inRange =>
    if !inRange then backendFail b env .Range obtained expected msgs
    else .ok (true, b)

/-- Embedding of `Asserts.Contains`: runs the kernel `contains`, reporting a
kernel type error as "type missmatch: ..." and a negative result as an
ordinary failure. -/
def aContains (b : Backend) (env : CallEnv) (part full : GoValue)
    (msgs : List (List Nat)) : Except GoError (Bool × Backend) :=
  match contains part full with
  | .error e =>
    backendFail b env .Contains part (.val full) [str ("type missmatch: ") ++ e]
  | .ok c =>
    if !c then backendFail b env .Contains part (.val full) msgs
    else .ok (true, b)

/-- Projection: the number of failure details a backend has collected. -/
def backendDetailCount : Backend → Nat
  | .validation f => f.details.length
  | _ => 0

/-- Projection: the `HasErrors()` view of a validation backend. -/
def backendHasErrors : Backend → Bool
  | .validation f => hasErrors f
  | _ => false

/-- Chain two assertion calls on the threaded backend (a panic aborts the
sequence, as in Go). -/
def andThen (r : Except GoError (Bool × Backend))
    (k : Backend → Except GoError (Bool × Backend)) :
    Except GoError (Bool × Backend) :=
  r.bind (fun p => k p.2)

/-- A fixed call environment for the concrete scenarios. -/
def testEnv : CallEnv :=
  { location := str ("asserts_test.go:42:0:"), fn := str ("TestScenario"), ts := 0 }

/-- The arguments of one `validationFailer.Fail` call. -/
structure FailCall where
  env : CallEnv
  test : Test
  obtained : GoValue
  expected : FailValue
  msgs : List (List Nat)

/-- Fold one `Fail` call into the validation state. -/
def applyFailCall (f : ValidationFailer) (c : FailCall) : ValidationFailer :=
  (validationFail f c.env c.test c.obtained c.expected c.msgs).2

/-- Embedding of `MakeWaitChan`: `make(chan any, 1)`. -/
def makeWaitChan : GoValue :=
  .vChan 0 1 false

/-- Embedding of `MakeMultiWaitChan`: sizes below 1 are clamped to 1, then
`make(chan any, size)`. -/
def makeMultiWaitChan (size : Int) : GoValue :=
  let clamped := if size < 1 then 1 else size
  .vChan 0 clamped.toNat false

/-- Projection: a channel value's capacity. -/
def chanCap : GoValue → Nat
  | .vChan _ c _ => c
  | _ => 0

/-- Modelled from the spec's words, for comparison with `isNil`: true both
for a true absence (the nil interface) and for a chan, func, map, pointer or
slice handle in its nil state; false for every other kind. -/
def specIsNil : GoValue → Bool
  | .vNilIface => true
  | .vChan _ _ n => n
  | .vFunc n => n
  | .vMap _ n => n
  | .vPtr n => n
  | .vSlice _ n => n
  | .vBytes _ n => n
  | _ => false

/-! Helper lemmas shared by the claim theorems. -/

/-- The extent normalization in `isAbout` computes the absolute value. -/
theorem extent_eq_abs (t : Rat) : (if t < 0 then t * (-1) else t) = |t| := by
  rcases lt_or_le t 0 with h | h
  · rw [if_pos h, abs_of_neg h]
    ring
  · rw [if_neg (not_lt.mpr h), abs_of_nonneg h]

/-- Folding `Fail` calls grows the detail list by one per call. -/
theorem foldFail_details (calls : List FailCall) :
    ∀ f : ValidationFailer,
      (calls.foldl applyFailCall f).details.length =
        f.details.length + calls.length := by
  induction calls with
  | nil => intro f; simp
  | cons c cs ih =>
    intro f
    have h : (applyFailCall f c).details.length = f.details.length + 1 := by
      simp [applyFailCall, validationFail]
    simp only [List.foldl_cons, ih, h, List.length_cons]
    omega

/-- Folding `Fail` calls grows the error list by one per call. -/
theorem foldFail_errs (calls : List FailCall) :
    ∀ f : ValidationFailer,
      (calls.foldl applyFailCall f).errs.length =
        f.errs.length + calls.length := by
  induction calls with
  | nil => intro f; simp
  | cons c cs ih =>
    intro f
    have h : (applyFailCall f c).errs.length = f.errs.length + 1 := by
      simp [applyFailCall, validationFail]
    simp only [List.foldl_cons, ih, h, List.length_cons]
    omega

/-- Folding printer interactions appends exactly the rendered lines. -/
theorem foldPrint_eq (actions : List PrintAction) :
    ∀ init : BufferState,
      actions.foldl applyPrint init = init ++ actions.map renderPrint := by
  induction actions with
  | nil => intro init; simp
  | cons a as ih =>
    intro init
    have h : applyPrint init a = init ++ [renderPrint a] := by
      cases a <;> rfl
    simp only [List.foldl_cons, ih, h, List.map_cons, List.append_assoc,
      List.singleton_append]

/-- Every non-panicking backend's `Fail` returns normally with `false`. -/
theorem backendFail_ok (b : Backend) (env : CallEnv) (test : Test)
    (obtained : GoValue) (expected : FailValue) (msgs : List (List Nat))
    (h : nonPanicking b = true) :
    ∃ b2, backendFail b env test obtained expected msgs = .ok (false, b2) := by
  cases b with
  | panicking => simp [nonPanicking] at h
  | validation f => exact ⟨_, rfl⟩
  | testing mode st =>
    cases mode with
    | noFailing => exact ⟨_, rfl⟩
    | failContinue => exact ⟨_, rfl⟩
    | failStop => exact ⟨_, rfl⟩

/-- Consuming a continuation run leaves the count of the remaining bytes. -/
theorem runeCountAux_skip (t : List Nat) :
    ∀ rest : List Nat, runeCountAux (t ++ rest) t.length = runeCountAux rest 0 := by
  induction t with
  | nil => intro rest; rfl
  | cons x t2 ih =>
    intro rest
    show runeCountAux (x :: (t2 ++ rest)) (t2.length + 1) = runeCountAux rest 0
    rw [show runeCountAux (x :: (t2 ++ rest)) (t2.length + 1) =
        runeCountAux (t2 ++ rest) t2.length from rfl]
    exact ih rest

/-- Unfolding step of the counter at a rune boundary. -/
theorem runeCountAux_cons_zero (b : Nat) (rest : List Nat) :
    runeCountAux (b :: rest) 0 = 1 + runeCountAux rest (runeLen b - 1) := by
  rfl

/-- One encoded rune contributes exactly one to the count: the leading byte
of each encoding length lies in the range that makes `runeLen` consume the
whole encoding. -/
theorem runeCount_encodeRune (c : Nat) (rest : List Nat) :
    runeCountAux (encodeRune c ++ rest) 0 = 1 + runeCountAux rest 0 := by
  by_cases h1 : c < 0x80
  · rw [encodeRune, if_pos h1]
    rw [List.singleton_append, runeCountAux_cons_zero, runeLen,
      if_pos (by omega : c < 0xC0)]
  · by_cases h2 : c < 0x800
    · rw [encodeRune, if_neg h1, if_pos h2]
      rw [List.cons_append, runeCountAux_cons_zero, runeLen,
        if_neg (by omega), if_pos (by omega)]
      have hs := runeCountAux_skip [0x80 + c % 0x40] rest
      rw [show (2 : Nat) - 1 = 1 from rfl]
      simpa using hs
    · by_cases h3 : c < 0x10000
      · rw [encodeRune, if_neg h1, if_neg h2, if_pos h3]
        rw [List.cons_append, runeCountAux_cons_zero, runeLen,
          if_neg (by omega), if_neg (by omega), if_pos (by omega)]
        have hs := runeCountAux_skip [0x80 + c / 0x40 % 0x40, 0x80 + c % 0x40] rest
        rw [show (3 : Nat) - 1 = 2 from rfl]
        simpa using hs
      · rw [encodeRune, if_neg h1, if_neg h2, if_neg h3]
        rw [List.cons_append, runeCountAux_cons_zero, runeLen,
          if_neg (by omega), if_neg (by omega), if_neg (by omega)]
        have hs := runeCountAux_skip
          [0x80 + c / 0x1000 % 0x40, 0x80 + c / 0x40 % 0x40, 0x80 + c % 0x40] rest
        rw [show (4 : Nat) - 1 = 3 from rfl]
        simpa using hs

/-- The rune count of an encoded scalar sequence is the number of scalars. -/
theorem utf8RuneCount_encode (cs : List Nat) :
    utf8RuneCount (utf8Encode cs) = cs.length := by
  induction cs with
  | nil => rfl
  | cons c cs2 ih =>
    have henc : utf8Encode (c :: cs2) = encodeRune c ++ utf8Encode cs2 := by
      simp [utf8Encode]
    rw [utf8RuneCount, henc, runeCount_encodeRune]
    rw [utf8RuneCount] at ih
    rw [ih, List.length_cons]
    omega

/-- A pattern without the alternation byte splits into itself alone. -/
theorem splitAlt_no_alt (l : List Nat) (h : (124 : Nat) ∉ l) :
    splitAlt l = [l] := by
  induction l with
  | nil => rfl
  | cons c rest ih =>
    have hc : c ≠ 124 := by
      intro hc
      exact h (hc ▸ List.mem_cons_self c rest)
    have hrest : (124 : Nat) ∉ rest := fun hm => h (List.mem_cons_of_mem _ hm)
    rw [splitAlt, if_neg hc, ih hrest]

/-- Matching a concatenated atom sequence threads the end position. -/
theorem matchAtoms_append (s : List Nat) (as bs : List RAtom) :
    ∀ i, matchAtoms s (as ++ bs) i =
      (matchAtoms s as i).bind (fun j => matchAtoms s bs j) := by
  induction as with
  | nil =>
    intro i
    simp [matchAtoms]
  | cons a as2 ih =>
    intro i
    cases a with
    | lit c =>
      rw [List.cons_append]
      cases hg : s[i]? with
      | none => simp [matchAtoms, hg]
      | some c2 =>
        by_cases hc : c2 = c
        · simp [matchAtoms, hg, hc, ih]
        · simp [matchAtoms, hg, hc]
    | caret =>
      by_cases hi : i = 0 <;> simp [matchAtoms, hi, ih]
    | dollar =>
      by_cases hi : i = s.length <;> simp [matchAtoms, hi, ih]

/-! The claim theorems. -/

/-- C1: the claim says every Range call whose bound types are incompatible
with the observed value or with each other yields a type-mismatch error.
The code only errors when BOTH bounds fail their type assertion: with an int
observed value, an int low bound and a string high bound, `isInRange`
silently compares against the zero value of the failed assertion — returning
a plain boolean, and even `true` for a negative observed value — while fully
mismatched bounds do produce the error.  This evaluation exhibits the
divergence (and the facade consequence: `Range(-1, -5, "twenty")` passes). -/
theorem c1_isInRange_mixed_bounds_eval :
    isInRange (.vInt 5) (.vInt 1) (.vString (str ("twenty"))) = .ok false
    ∧ isInRange (.vInt (-1)) (.vInt (-5)) (.vString (str ("twenty"))) = .ok true
    ∧ isInRange (.vString (str ("hello"))) (.vInt 1) (.vInt 5) =
        .error (str ("low and/or high are no string"))
    ∧ aRange (.validation newValidation) testEnv (.vInt (-1)) (.vInt (-5))
        (.vString (str ("twenty"))) [] =
        .ok (true, .validation newValidation) := by
  exact ⟨rfl, rfl, rfl, rfl⟩

/-- C2 counterexample: the claim says `Contains(4711, "hello")` fails with a
type-mismatch error; the code instead coerces the part through `%v` and
returns a plain `false` with a nil error. -/
theorem c2_contains_counterexample :
    contains (.vInt 4711) (.vString (str ("hello"))) = .ok false := by
  rfl

/-- C2 (amended): `Contains(4711, []int{1,2,3,4711,5})` succeeds, and for an
array or slice full value containment holds iff some element deep-equals the
part; `Contains(4711, "hello")` fails as an ordinary assertion failure (the
part is rendered as text and searched for, yielding plain false), not with a
type-mismatch error. -/
theorem c2_contains_amended :
    contains (.vInt 4711)
        (.vSlice [.vInt 1, .vInt 2, .vInt 3, .vInt 4711, .vInt 5] false) =
      .ok true
    ∧ (∀ (part : GoValue) (es : List GoValue) (n : Bool),
        contains part (.vSlice es n) =
          .ok (es.any (fun e => deepEqual part e)))
    ∧ (∀ (part : GoValue) (es : List GoValue),
        contains part (.vArray es) =
          .ok (es.any (fun e => deepEqual part e)))
    ∧ contains (.vInt 4711) (.vString (str ("hello"))) = .ok false := by
  refine ⟨rfl, ?_, ?_, rfl⟩
  · intro part es n
    cases part <;> rfl
  · intro part es
    cases part <;> rfl

/-- C4: approximate equality holds iff the observed value lies within the
absolute tolerance around the expected value, and the predicate is invariant
under negating the tolerance. -/
theorem c4_isAbout_abs_tolerance (o e t : Rat) :
    (isAbout o e t = true ↔ (e - |t| ≤ o ∧ o ≤ e + |t|))
    ∧ isAbout o e t = isAbout o e (-t) := by
  constructor
  · unfold isAbout
    rw [extent_eq_abs]
    simp [Bool.and_eq_true, decide_eq_true_iff]
  · unfold isAbout
    rw [extent_eq_abs, extent_eq_abs, abs_neg]

/-- C7: every `validationFailer.Fail` call returns false and appends exactly
one failure detail and one error; after any sequence of n failing calls the
backend holds exactly n records and `HasErrors()` is true iff n > 0; and the
concrete scenario `True(false)` then `Equal(1,2)` on a fresh validation
backend yields (false, 2 records, HasErrors() = true). -/
theorem c7_validationFailer_records :
    (∀ (f : ValidationFailer) (env : CallEnv) (test : Test)
        (obtained : GoValue) (expected : FailValue) (msgs : List (List Nat)),
      (validationFail f env test obtained expected msgs).1 = false
      ∧ (validationFail f env test obtained expected msgs).2.details.length =
          f.details.length + 1
      ∧ (validationFail f env test obtained expected msgs).2.errs.length =
          f.errs.length + 1)
    ∧ (∀ calls : List FailCall,
        (calls.foldl applyFailCall newValidation).details.length = calls.length
        ∧ (calls.foldl applyFailCall newValidation).errs.length = calls.length
        ∧ hasErrors (calls.foldl applyFailCall newValidation) = !calls.isEmpty)
    ∧ (andThen (aTrue (.validation newValidation) testEnv false [])
        (fun b => aEqual b testEnv (.vInt 1) (.vInt 2) [])).toOption.map
          (fun p => (p.1, backendDetailCount p.2, backendHasErrors p.2)) =
        some (false, 2, true) := by
  refine ⟨?_, ?_, rfl⟩
  · intro f env test obtained expected msgs
    exact ⟨rfl, by simp [validationFail], by simp [validationFail]⟩
  · intro calls
    refine ⟨?_, ?_, ?_⟩
    · rw [foldFail_details]
      simp [newValidation]
    · rw [foldFail_errs]
      simp [newValidation]
    · rw [hasErrors, foldFail_errs]
      cases calls <;> simp [newValidation]

/-- C8: the buffered printer's Flush drains: after any sequence of printer
interactions the first Flush returns exactly the buffered lines in order and
leaves an empty buffer, so an immediately following Flush returns nothing. -/
theorem c8_bufferedPrinter_flush_drains (actions : List PrintAction) :
    (bufferedFlush (actions.foldl applyPrint [])).1 = actions.map renderPrint
    ∧ (bufferedFlush (bufferedFlush (actions.foldl applyPrint [])).2).1 = [] := by
  constructor
  · rw [bufferedFlush, foldPrint_eq]
    simp
  · rfl

/-- C9: the nil-ness predicate is total — it never reaches the panicking
reflection call — and returns true exactly for the nil interface and for nil
chan, func, map, pointer and slice handles, false for every value whose type
cannot hold a nil state. -/
theorem c9_isNil_total_correct (v : GoValue) :
    isNil v = .ok (specIsNil v) := by
  cases v <;> rfl

/-- C10: `MakeWaitChan` returns a channel of capacity exactly 1, and
`MakeMultiWaitChan(size)` returns capacity `size` when `size ≥ 1` and
capacity 1 for every smaller size (clamping, not failing), so the capacity is
always at least 1. -/
theorem c10_waitChan_capacity :
    chanCap makeWaitChan = 1
    ∧ ∀ size : Int,
        1 ≤ chanCap (makeMultiWaitChan size)
        ∧ (1 ≤ size → (chanCap (makeMultiWaitChan size) : Int) = size)
        ∧ (size < 1 → chanCap (makeMultiWaitChan size) = 1) := by
  refine ⟨rfl, ?_⟩
  intro size
  by_cases h : size < 1
  · refine ⟨?_, fun h1 => ?_, fun _ => ?_⟩
    · simp [makeMultiWaitChan, chanCap, h]
    · omega
    · simp [makeMultiWaitChan, chanCap, h]
  · refine ⟨?_, fun h1 => ?_, fun h1 => ?_⟩
    · simp only [makeMultiWaitChan, chanCap, if_neg h]
      omega
    · simp only [makeMultiWaitChan, chanCap, if_neg h]
      omega
    · omega

/-- C5: for every well-formed UTF-8 string (the encoding of a scalar-value
sequence), the length computation used by Length/Empty/NotEmpty reports the
number of Unicode code points, not the number of bytes: `hasLength` succeeds
against the code-point count. -/
theorem c5_hasLength_counts_runes (cs : List Nat)
    (_hvalid : ∀ c ∈ cs, validScalar c) :
    utf8RuneCount (utf8Encode cs) = cs.length
    ∧ hasLength (.vString (utf8Encode cs)) (cs.length : Int) =
        .ok (true, (cs.length : Int)) := by
  refine ⟨utf8RuneCount_encode cs, ?_⟩
  simp [hasLength, utf8RuneCount_encode]

/-- Witness for C5: the 3-character string "äöü" (scalars 228, 246, 252)
encodes to 6 bytes but reports length 3. -/
theorem c5_hasLength_counts_runes_witness :
    (∀ c ∈ [228, 246, 252], validScalar c)
    ∧ utf8RuneCount (utf8Encode [228, 246, 252]) = 3
    ∧ (utf8Encode [228, 246, 252]).length = 6 := by
  exact ⟨by decide, (c5_hasLength_counts_runes [228, 246, 252] (by decide)).1,
    by rfl⟩

/-- C6 counterexample: for the pattern "a|b" and the string "xb", the Match
assertion succeeds (the textual wrapping "^a|b$" attaches the anchors to the
outer alternation branches, so the trailing "b$" matches the end of "xb"),
although the whole of "xb" does not match "a|b". -/
theorem c6_isMatching_alternation_counterexample :
    isMatching (str ("xb")) (str ("a|b")) = true
    ∧ wholeAnchoredMatch (str ("a|b")) (str ("xb")) = false := by
  exact ⟨rfl, rfl⟩

/-- C6 (amended): for every pattern of the modelled fragment WITHOUT
top-level alternation (no `|` byte) and every string, the Match assertion
succeeds iff the whole string matches the pattern anchored at both start and
end; in particular a pattern matching only a proper substring fails. -/
theorem c6_isMatching_anchored_amended (p s : List Nat)
    (hp : (124 : Nat) ∉ p) :
    isMatching s p = true ↔ wholeAnchoredMatch p s = true := by
  have hfull : (124 : Nat) ∉ (94 :: (p ++ [36])) := by
    intro hmem
    rcases List.mem_cons.mp hmem with h94 | hmem2
    · exact absurd h94 (by decide)
    · rcases List.mem_append.mp hmem2 with hin | h36
      · exact hp hin
      · exact absurd (List.mem_singleton.mp h36) (by decide)
  have hbr1 : branchesOf (94 :: (p ++ [36])) =
      [.caret :: (p.map atomOfByte ++ [.dollar])] := by
    rw [branchesOf, splitAlt_no_alt _ hfull]
    simp [atomOfByte]
  have hbr2 : branchesOf p = [p.map atomOfByte] := by
    rw [branchesOf, splitAlt_no_alt _ hp]
    rfl
  constructor
  · intro h
    rw [isMatching, goMatchString, List.any_eq_true] at h
    obtain ⟨i, _, hspan⟩ := h
    rw [matchSomeBranchAt, List.cons_append, hbr1] at hspan
    simp only [List.any_cons, List.any_nil, Bool.or_false] at hspan
    by_cases hi : i = 0
    · subst hi
      rw [matchAtoms, if_pos rfl, matchAtoms_append] at hspan
      cases hA : matchAtoms s (p.map atomOfByte) 0 with
      | none => rw [hA] at hspan; simp at hspan
      | some j =>
        rw [hA] at hspan
        simp only [Option.some_bind] at hspan
        rw [matchAtoms] at hspan
        by_cases hj : j = s.length
        · rw [wholeAnchoredMatch, hbr2]
          simp only [List.any_cons, List.any_nil, Bool.or_false]
          rw [hA, hj]
          simp
        · rw [if_neg hj] at hspan
          simp at hspan
    · rw [matchAtoms, if_neg hi] at hspan
      simp at hspan
  · intro h
    rw [wholeAnchoredMatch, hbr2] at h
    simp only [List.any_cons, List.any_nil, Bool.or_false, beq_iff_eq] at h
    rw [isMatching, goMatchString, List.any_eq_true]
    refine ⟨0, List.mem_range.mpr (by omega), ?_⟩
    rw [matchSomeBranchAt, List.cons_append, hbr1]
    simp only [List.any_cons, List.any_nil, Bool.or_false]
    rw [matchAtoms, if_pos rfl, matchAtoms_append, h]
    simp only [Option.some_bind]
    rw [matchAtoms, if_pos rfl]
    rfl

/-- Witness for C6 at the alternation-free pattern "abc": "abc" itself
matches, and the superstring "xabcy" containing "abc" properly does not. -/
theorem c6_isMatching_anchored_amended_witness :
    ((124 : Nat) ∉ str ("abc"))
    ∧ (isMatching (str ("abc")) (str ("abc")) = true ↔
        wholeAnchoredMatch (str ("abc")) (str ("abc")) = true)
    ∧ (isMatching (str ("xabcy")) (str ("abc")) = true ↔
        wholeAnchoredMatch (str ("abc")) (str ("xabcy")) = true) := by
  exact ⟨by decide, c6_isMatching_anchored_amended (str ("abc")) (str ("abc"))
    (by decide), c6_isMatching_anchored_amended (str ("abc")) (str ("xabcy"))
    (by decide)⟩

/-- C3 counterexample: the claim says no hard fault escapes an assertion
call under a non-panicking backend and the kernel helpers never panic on
their own; but `NoError(42)` under the collecting (validation) backend
panics inside `anyToError` ("invalid type for error assertion") before any
backend interaction. -/
theorem c3_noError_panic_counterexample :
    aNoError (.validation newValidation) testEnv (.vInt 42) [] =
      .error (str ("invalid type for error assertion")) := by
  rfl

/-- C3 (amended): failure signaling funnels through the backend contract —
the panicking backend's Fail always raises, every non-panicking backend's
Fail returns false without raising — and the only other hard-fault source on
the failure path is `anyToError`, which converts nil, error and errable
arguments without fault but deliberately panics on every other argument
regardless of backend; in particular NoError under a non-panicking backend
raises no fault whenever its argument is nil, an error, or errable. -/
theorem c3_fail_panic_policy_amended :
    (∀ (env : CallEnv) (test : Test) (obtained : GoValue)
        (expected : FailValue) (msgs : List (List Nat)),
      (backendFail .panicking env test obtained expected msgs).isOk = false)
    ∧ (∀ (b : Backend) (env : CallEnv) (test : Test) (obtained : GoValue)
        (expected : FailValue) (msgs : List (List Nat)),
        nonPanicking b = true →
        ∃ b2, backendFail b env test obtained expected msgs = .ok (false, b2))
    ∧ (∀ v : GoValue, (anyToError v).isOk = errorish v)
    ∧ (∀ (b : Backend) (env : CallEnv) (v : GoValue) (msgs : List (List Nat)),
        nonPanicking b = true → errorish v = true →
        (aNoError b env v msgs).isOk = true) := by
  refine ⟨?_, backendFail_ok, ?_, ?_⟩
  · intro env test obtained expected msgs
    rfl
  · intro v
    cases v <;> rfl
  · intro b env v msgs hb hv
    cases v with
    | vNilIface => rfl
    | vError m =>
      simp only [aNoError, anyToError, isNil, Bool.not_false]
      obtain ⟨b2, hb2⟩ := backendFail_ok b env .NoError (.vError m)
        (.val .vNilIface) msgs hb
      rw [hb2]
      rfl
    | vErrable e =>
      cases e with
      | none => rfl
      | some m =>
        simp only [aNoError, anyToError, isNil, Bool.not_false]
        obtain ⟨b2, hb2⟩ := backendFail_ok b env .NoError (.vError m)
          (.val .vNilIface) msgs hb
        rw [hb2]
        rfl
    | vBool x => simp [errorish] at hv
    | vByte x => simp [errorish] at hv
    | vInt x => simp [errorish] at hv
    | vFloat x => simp [errorish] at hv
    | vRune x => simp [errorish] at hv
    | vString x => simp [errorish] at hv
    | vBytes x y => simp [errorish] at hv
    | vTime x => simp [errorish] at hv
    | vDuration x => simp [errorish] at hv
    | vSlice x y => simp [errorish] at hv
    | vArray x => simp [errorish] at hv
    | vMap x y => simp [errorish] at hv
    | vChan x y z => simp [errorish] at hv
    | vFunc x => simp [errorish] at hv
    | vPtr x => simp [errorish] at hv
    | vLenable x => simp [errorish] at hv

/-- Witness for C3: the validation backend is non-panicking, a concrete
error value is errorish, and the NoError call on it completes without a
fault. -/
theorem c3_fail_panic_policy_witness :
    nonPanicking (.validation newValidation) = true
    ∧ errorish (.vError (str ("boom"))) = true
    ∧ (aNoError (.validation newValidation) testEnv (.vError (str ("boom")))
        []).isOk = true := by
  exact ⟨rfl, rfl, c3_fail_panic_policy_amended.2.2.2 (.validation newValidation)
    testEnv (.vError (str ("boom"))) [] rfl rfl⟩

/-- Witness for C10 at sizes 3 and 0. -/
theorem c10_waitChan_capacity_witness :
    ((1 : Int) ≤ 3 ∧ (chanCap (makeMultiWaitChan 3) : Int) = 3)
    ∧ ((0 : Int) < 1 ∧ chanCap (makeMultiWaitChan 0) = 1) := by
  exact ⟨⟨by decide, (c10_waitChan_capacity.2 3).2.1 (by decide)⟩,
    ⟨by decide, (c10_waitChan_capacity.2 0).2.2 (by decide)⟩⟩

end GoAudit
